import Mathlib

/-
Shallow embedding of the simulation core of the `marvelclash-game` repository
(a wave-based tower-defense game) and proofs about its claimed properties.

Conventions of the embedding:
* JS numbers are embedded as exact rationals (ℚ) for continuous quantities
  (positions, times, health, damage) and as ℤ / ℕ for counters and money.
* `THREE.Vector3.distanceTo` comparisons (`sqrt d ≤ r`, `sqrt d < r`,
  `sqrt d > r`) are embedded by the equivalent squared-distance comparisons
  (`0 ≤ r ∧ d ≤ r²`, etc.), which agree with the source exactly because
  `Real.sqrt` is strictly monotone on nonnegative reals and distances are
  nonnegative.
* Object identities produced by `Date.now()`/`Math.random()` id strings are
  embedded as natural numbers drawn from a fresh counter.
* The single call to `Math.random()` that gates enemy spawning in
  `updateGame` is embedded as an explicit rational parameter `spawnRoll`
  (the sampled value), and `Date.now()` inside the targeting cache as an
  explicit rational parameter `wallNow`.
* Zustand's `get()` / `set(...)` store threading is embedded by explicit
  state passing: a snapshot taken at the start of `updateGame` is kept
  separate from the threaded current store, exactly as in the source.
-/

namespace MarvelClash

/-! ### Rational vectors (embedding of THREE.Vector3 as used by the core) -/

structure Vec3 where
  x : ℚ
  y : ℚ
  z : ℚ
deriving DecidableEq, Repr

/-- Squared Euclidean distance. -/
def Vec3.distSq (a b : Vec3) : ℚ :=
  (a.x - b.x) ^ 2 + (a.y - b.y) ^ 2 + (a.z - b.z) ^ 2

/-- Embedding of `a.distanceTo(b) <= r`. -/
def distLeB (a b : Vec3) (r : ℚ) : Bool :=
  decide (0 ≤ r) && decide (Vec3.distSq a b ≤ r ^ 2)

/-- Embedding of `a.distanceTo(b) < r`. -/
def distLtB (a b : Vec3) (r : ℚ) : Bool :=
  decide (0 < r) && decide (Vec3.distSq a b < r ^ 2)

/-! ### ObjectPool (src/client/src/lib/systems/ObjectPool.ts)

Pooled objects are identified by natural numbers; the factory hands out a
fresh identity from the `nextObj` counter.  `inUse` is a JS `Set`,
embedded as a duplicate-free list (`List.insert` adds only when absent,
matching `Set.add`). -/

namespace Pool

structure ObjectPool where
  available : List ℕ
  inUse : List ℕ
  nextObj : ℕ
  maxSize : ℕ
deriving DecidableEq, Repr

/-- `constructor(factory, maxSize, reset?)`: pre-populates the pool with
`min(10, maxSize)` factory objects. -/
def mk (maxSize : ℕ) : ObjectPool :=
  { available := List.range (min 10 maxSize)
    inUse := []
    nextObj := min 10 maxSize
    maxSize := maxSize }

/-- `acquire()`: pop from the back of `available` (JS `Array.pop`), else
construct a new object; either way add it to `inUse`. -/
def acquire (p : ObjectPool) : ℕ × ObjectPool :=
  match p.available.getLast? with
  | some obj =>
      (obj, { p with available := p.available.dropLast, inUse := p.inUse.insert obj })
  | none =>
      (p.nextObj,
        { p with nextObj := p.nextObj + 1, inUse := p.inUse.insert p.nextObj })

/-- `release(obj)`: no-op when `obj` is not leased; otherwise remove it from
`inUse` and push it back only while `available.length < maxSize`. -/
def release (p : ObjectPool) (obj : ℕ) : ObjectPool :=
  if obj ∈ p.inUse then
    if p.available.length < p.maxSize then
      { p with inUse := p.inUse.erase obj, available := p.available ++ [obj] }
    else { p with inUse := p.inUse.erase obj }
  else p

inductive PoolOp where
  | acq : PoolOp
  | rel : ℕ → PoolOp
deriving DecidableEq, Repr

def applyOp (p : ObjectPool) : PoolOp → ObjectPool
  | .acq => (acquire p).2
  | .rel o => release p o

def applyOps (p : ObjectPool) (ops : List PoolOp) : ObjectPool :=
  ops.foldl applyOp p

end Pool

/-! ### TargetingSystem (src/client/src/lib/systems/TargetingSystem.ts) -/

namespace Targeting

structure TargetableEntity where
  id : ℕ
  position : Vec3
  health : Option ℚ
deriving DecidableEq, Repr

structure TargetingEntity where
  id : ℕ
  position : Vec3
  range : ℚ
  currentTargetId : Option ℕ
deriving DecidableEq, Repr

inductive Strategy where
  | closest
  | weakest
  | strongest
  | first
  | last
deriving DecidableEq, Repr

/-- Mutable fields of the `TargetingSystem` class: the per-entity memo map
and the wall-clock timestamp of the last cache refresh. -/
structure TargetingState where
  strategy : Strategy
  targetCache : List (ℕ × Option ℕ)
  lastUpdateTime : ℚ
deriving DecidableEq, Repr

def cacheUpdateInterval : ℚ := 100

/-- `isInRange`: `getDistance(entity.position, target.position) <= entity.range`. -/
def isInRange (e : TargetingEntity) (t : TargetableEntity) : Bool :=
  distLeB e.position t.position e.range

/-- `Map.get` on the target cache. -/
def lookupCache (c : List (ℕ × Option ℕ)) (k : ℕ) : Option (Option ℕ) :=
  (c.find? (fun kv => kv.1 = k)).map Prod.snd

/-- `Map.set` on the target cache. -/
def setCache (c : List (ℕ × Option ℕ)) (k : ℕ) (v : Option ℕ) : List (ℕ × Option ℕ) :=
  if (c.find? (fun kv => kv.1 = k)).isSome then
    c.map (fun kv => if kv.1 = k then (k, v) else kv)
  else c ++ [(k, v)]

/-- One step of `findClosestTarget`'s forEach: keep the incumbent unless the
new candidate is strictly closer (`distance < minDistance`, which starts at
Infinity, so the first element always becomes the incumbent). -/
def closestStep (e : TargetingEntity) (best : Option (TargetableEntity × ℚ))
    (t : TargetableEntity) : Option (TargetableEntity × ℚ) :=
  let d := Vec3.distSq e.position t.position
  match best with
  | none => some (t, d)
  | some (b, m) => if d < m then some (t, d) else some (b, m)

def findClosestTarget (e : TargetingEntity) (targets : List TargetableEntity) :
    Option TargetableEntity :=
  (targets.foldl (closestStep e) none).map Prod.fst

/-- `findWeakestTarget`: strict `<` against a minimum starting at Infinity,
skipping entries without a health value; `weakest || targets[0]` at the end. -/
def findWeakestTarget (targets : List TargetableEntity) : Option TargetableEntity :=
  let r := targets.foldl
    (fun (best : Option (TargetableEntity × ℚ)) t =>
      match t.health with
      | none => best
      | some h =>
          match best with
          | none => some (t, h)
          | some (b, m) => if h < m then some (t, h) else some (b, m))
    none
  match r.map Prod.fst with
  | some t => some t
  | none => targets.head?

/-- `findStrongestTarget`: strict `>` against a maximum starting at 0. -/
def findStrongestTarget (targets : List TargetableEntity) : Option TargetableEntity :=
  let r := targets.foldl
    (fun (acc : Option TargetableEntity × ℚ) t =>
      match t.health with
      | none => acc
      | some h => if acc.2 < h then (some t, h) else acc)
    (none, 0)
  match r.1 with
  | some t => some t
  | none => targets.head?

/-- The non-cached tail of `findBestTarget` (lines 55-95 of the source):
filter by range, bail out caching `null` when nothing is eligible, otherwise
apply the strategy, cache the result and conditionally refresh
`lastUpdateTime`. -/
def recompute (ts : TargetingState) (now : ℚ) (e : TargetingEntity)
    (potentialTargets : List TargetableEntity) : Option ℕ × TargetingState :=
  let targetsInRange := potentialTargets.filter (isInRange e)
  if targetsInRange.length = 0 then
    (none, { ts with targetCache := setCache ts.targetCache e.id none })
  else
    let bestTarget : Option TargetableEntity :=
      match ts.strategy with
      | .closest => findClosestTarget e targetsInRange
      | .weakest => findWeakestTarget targetsInRange
      | .strongest => findStrongestTarget targetsInRange
      | .first => targetsInRange.head?
      | .last => targetsInRange.getLast?
    let result := bestTarget.map (fun t => t.id)
    let ts1 := { ts with targetCache := setCache ts.targetCache e.id result }
    let ts2 :=
      if cacheUpdateInterval ≤ now - ts.lastUpdateTime then
        { ts1 with lastUpdateTime := now }
      else ts1
    (result, ts2)

/-- `findBestTarget(entity, potentialTargets)`: serve a still-valid cached
target when inside the refresh window, else recompute.  `now` stands for the
`Date.now()` sample taken at the top of the call. -/
def findBestTarget (ts : TargetingState) (now : ℚ) (e : TargetingEntity)
    (potentialTargets : List TargetableEntity) : Option ℕ × TargetingState :=
  if now - ts.lastUpdateTime < cacheUpdateInterval then
    match lookupCache ts.targetCache e.id with
    | some (some tid) =>
        match potentialTargets.find? (fun t => t.id = tid) with
        | some t =>
            if isInRange e t then (some tid, ts)
            else recompute ts now e potentialTargets
        | none => recompute ts now e potentialTargets
    | some none => recompute ts now e potentialTargets
    | none => recompute ts now e potentialTargets
  else recompute ts now e potentialTargets

/-- `predictTargetPosition(target, timeAhead)`. -/
def predictTargetPosition (pos : Vec3) (vel : Option Vec3) (timeAhead : ℚ) : Vec3 :=
  match vel with
  | none => pos
  | some v => ⟨pos.x + v.x * timeAhead, pos.y + v.y * timeAhead, pos.z + v.z * timeAhead⟩

def dot (a b : Vec3) : ℚ := a.x * b.x + a.y * b.y + a.z * b.z

def lengthSq (a : Vec3) : ℚ := dot a a

def vsub (a b : Vec3) : Vec3 := ⟨a.x - b.x, a.y - b.y, a.z - b.z⟩

/-- `calculateFiringSolution(shooterPos, target, projectileSpeed)`.
`sqrtDisc` stands for the value of `Math.sqrt(discriminant)` (irrational in
general over ℚ); call sites supply it together with the facts
`sqrtDisc ^ 2 = discriminant` and `0 ≤ sqrtDisc`. -/
def calculateFiringSolution (shooterPos targetPos : Vec3) (targetVel : Option Vec3)
    (projectileSpeed : ℚ) (sqrtDisc : ℚ) : Vec3 :=
  match targetVel with
  | none => targetPos
  | some vel =>
      let relativePos := vsub targetPos shooterPos
      let a := lengthSq vel - projectileSpeed * projectileSpeed
      let b := 2 * dot vel relativePos
      let c := lengthSq relativePos
      let discriminant := b * b - 4 * a * c
      if discriminant < 0 then targetPos
      else
        let t1 := (-b + sqrtDisc) / (2 * a)
        let t2 := (-b - sqrtDisc) / (2 * a)
        let t := min t1 t2
        if t < 0 then targetPos
        else predictTargetPosition targetPos (some vel) t

/-- Written from the spec, for comparison with `findClosestTarget`: the
first (earliest-enumerated) element of the list attaining the minimum
distance, paired with its squared distance. -/
def specNearestD (e : TargetingEntity) : List TargetableEntity → Option (TargetableEntity × ℚ)
  | [] => none
  | t :: ts =>
      match specNearestD e ts with
      | none => some (t, Vec3.distSq e.position t.position)
      | some (u, du) =>
          if du < Vec3.distSq e.position t.position then some (u, du)
          else some (t, Vec3.distSq e.position t.position)

/-- Written from the spec: the first minimum-distance element. -/
def specNearest (e : TargetingEntity) (targets : List TargetableEntity) :
    Option TargetableEntity :=
  (specNearestD e targets).map Prod.fst

end Targeting

/-! ### Tower-defense store (src/unnamed/part_000, `useTowerDefense`) -/

namespace Game

inductive GamePhase where
  | menu
  | playing
  | paused
  | ended
deriving DecidableEq, Repr

inductive EnemyType where
  | normal
  | fast
  | heavy
  | boss
deriving DecidableEq, Repr

inductive ParticleType where
  | explosion
  | hit
  | death
deriving DecidableEq, Repr

structure Tower where
  id : ℕ
  position : Vec3
  type : String
  level : ℕ
  damage : ℚ
  range : ℚ
  fireRate : ℚ
  lastFired : ℚ
  canFire : Bool
  currentTargetId : Option ℕ
  showRange : Bool
deriving DecidableEq, Repr

structure Enemy where
  id : ℕ
  position : Vec3
  type : EnemyType
  health : ℚ
  maxHealth : ℚ
  speed : ℚ
  pathProgress : ℚ
  reward : ℤ
deriving DecidableEq, Repr

structure LaserBeam where
  id : ℕ
  start : Vec3
  endPos : Vec3
  color : String
  damage : ℚ
  lifetime : ℚ
deriving DecidableEq, Repr

structure ParticleEffect where
  id : ℕ
  position : Vec3
  type : ParticleType
  color : String
  lifetime : ℚ
deriving DecidableEq, Repr

/-- The zustand store of `useTowerDefense`.  `nextId` embeds the
`Date.now()`/`Math.random()` id generation as a fresh-name counter. -/
structure GameState where
  gamePhase : GamePhase
  currentWave : ℕ
  totalWaves : ℕ
  lives : ℤ
  score : ℤ
  money : ℤ
  gameTime : ℚ
  waveProgress : ℚ
  towers : List Tower
  enemies : List Enemy
  laserBeams : List LaserBeam
  particleEffects : List ParticleEffect
  enemiesKilled : ℕ
  accuracy : ℚ
  totalShots : ℕ
  hitShots : ℕ
  laserPool : Pool.ObjectPool
  particlePool : Pool.ObjectPool
  targeting : Targeting.TargetingState
  nextId : ℕ
deriving DecidableEq, Repr

/-- `enemyConfig` table inside `spawnEnemy`: health, speed, reward. -/
def enemyConfig : EnemyType → ℚ × ℚ × ℤ
  | .normal => (100, 1 / 50, 10)
  | .fast => (60, 1 / 25, 15)
  | .heavy => (200, 1 / 100, 25)
  | .boss => (500, 3 / 200, 100)

/-- `spawnEnemy(type)`. -/
def spawnEnemy (s : GameState) (t : EnemyType) : GameState :=
  let config := enemyConfig t
  { s with
    enemies := s.enemies ++
      [{ id := s.nextId, position := ⟨0, 1, -25⟩, type := t, health := config.1,
         maxHealth := config.1, speed := config.2.1, pathProgress := 0,
         reward := config.2.2 }]
    nextId := s.nextId + 1 }

/-- `addParticleEffect(effect)`: lease a particle from the pool and append. -/
def addParticleEffect (s : GameState) (pos : Vec3) (t : ParticleType) (color : String)
    (lifetime : ℚ) : GameState :=
  let acq := Pool.acquire s.particlePool
  { s with
    particlePool := acq.2
    particleEffects := s.particleEffects ++
      [{ id := s.nextId, position := pos, type := t, color := color, lifetime := lifetime }]
    nextId := s.nextId + 1 }

/-- `damageEnemy(enemyId, damage)`: no armor or resistance is consulted —
the raw damage is subtracted directly, floored at health 0; a kill removes
the enemy and credits its reward to score and money. -/
def damageEnemy (s : GameState) (enemyId : ℕ) (damage : ℚ) : GameState :=
  match s.enemies.find? (fun e => e.id == enemyId) with
  | none => s
  | some enemy =>
      let newHealth := max 0 (enemy.health - damage)
      if newHealth ≤ 0 then
        let s1 := { s with enemies := s.enemies.filter (fun e => e.id != enemyId) }
        let s2 := addParticleEffect s1 enemy.position .death "#ff4444" 1
        { s2 with
          score := s2.score + enemy.reward
          money := s2.money + enemy.reward
          enemiesKilled := s2.enemiesKilled + 1
          hitShots := s2.hitShots + 1 }
      else
        let s1 := { s with
          enemies := s.enemies.map
            (fun e => if e.id = enemyId then { e with health := newHealth } else e)
          hitShots := s.hitShots + 1 }
        addParticleEffect s1 enemy.position .hit "#ffaa00" (1 / 2)

/-- `fireLaser(towerId, targetId)`: validate both ids against the current
store, lease a laser, append it, bump `totalShots`, then apply damage. -/
def fireLaser (s : GameState) (towerId targetId : ℕ) : GameState :=
  match s.towers.find? (fun t => t.id == towerId),
        s.enemies.find? (fun e => e.id == targetId) with
  | some tower, some target =>
      let acq := Pool.acquire s.laserPool
      let laser : LaserBeam :=
        { id := s.nextId
          start := ⟨tower.position.x, tower.position.y + 3 / 2, tower.position.z⟩
          endPos := target.position
          color := "#ff0000"
          damage := tower.damage
          lifetime := 1 / 10 }
      let s1 := { s with
        laserPool := acq.2
        laserBeams := s.laserBeams ++ [laser]
        totalShots := s.totalShots + 1
        nextId := s.nextId + 1 }
      damageEnemy s1 targetId tower.damage
  | _, _ => s

/-- `placeTower(position, type)`: rejected silently unless `money >= 50`. -/
def placeTower (s : GameState) (position : Vec3) (type : String) : GameState :=
  let cost : ℤ := 50
  if s.money ≥ cost then
    let newTower : Tower :=
      { id := s.nextId, position := position, type := type, level := 1, damage := 25,
        range := 8, fireRate := 2, lastFired := 0, canFire := true,
        currentTargetId := none, showRange := false }
    { s with
      towers := s.towers ++ [newTower]
      money := s.money - cost
      nextId := s.nextId + 1 }
  else s

/-- `nextWave()`. -/
def nextWave (s : GameState) : GameState :=
  { s with currentWave := s.currentWave + 1, waveProgress := 0, money := s.money + 50 }

/-- JS `Math.trunc`-style rounding used by the `%` operator. -/
def ratTrunc (q : ℚ) : ℤ :=
  if 0 ≤ q then ⌊q⌋ else ⌈q⌉

/-- JS remainder `x % m` (sign follows the dividend). -/
def jsMod (x m : ℚ) : ℚ :=
  x - m * (ratTrunc (x / m) : ℚ)

/-- One iteration of the tower map loop of `updateGame` (lines 202-235):
`stateEnemies` is the snapshot captured at tick start, `acc.1` the live
store mutated by `fireLaser`, `acc.2` the updated towers built so far.
`canFire` embeds `(newGameTime - lastFired) >= 1 / fireRate` with the IEEE
convention `1 / 0 = Infinity` (hence never ready at `fireRate = 0`). -/
def towerStep (stateEnemies : List Enemy) (newGameTime wallNow : ℚ)
    (acc : GameState × List Tower) (tower : Tower) : GameState × List Tower :=
  let st := acc.1
  let canFire : Bool :=
    if tower.fireRate = 0 then false
    else decide (newGameTime - tower.lastFired ≥ 1 / tower.fireRate)
  let validatedTarget : Option ℕ :=
    match tower.currentTargetId with
    | some tid =>
        match stateEnemies.find? (fun e => e.id == tid) with
        | none => none
        | some target =>
            if distLeB tower.position target.position tower.range then some tid else none
    | none => none
  let findRes : Option ℕ × Targeting.TargetingState :=
    match validatedTarget with
    | none =>
        Targeting.findBestTarget st.targeting wallNow
          ⟨tower.id, tower.position, tower.range, tower.currentTargetId⟩
          (stateEnemies.map (fun e => ⟨e.id, e.position, some e.health⟩))
    | some tid => (some tid, st.targeting)
  let st1 := { st with targeting := findRes.2 }
  match findRes.1 with
  | some tid =>
      if canFire then
        (fireLaser st1 tower.id tid,
          acc.2 ++
            [{ tower with
                currentTargetId := some tid, lastFired := newGameTime, canFire := false }])
      else
        (st1, acc.2 ++ [{ tower with currentTargetId := some tid, canFire := canFire }])
  | none => (st1, acc.2 ++ [{ tower with currentTargetId := none, canFire := canFire }])

/-- One iteration of the enemy map/filter of `updateGame` (lines 238-255):
a breach (`newProgress >= 1`) drops the enemy and decrements `lives` on the
live store with no lower bound; otherwise the enemy advances along the
path. -/
def enemyStep (deltaTime : ℚ) (acc : GameState × List Enemy) (enemy : Enemy) :
    GameState × List Enemy :=
  let newProgress := enemy.pathProgress + enemy.speed * deltaTime
  if newProgress ≥ 1 then
    ({ acc.1 with lives := acc.1.lives - 1 }, acc.2)
  else
    (acc.1, acc.2 ++
      [{ enemy with
          pathProgress := newProgress,
          position := ⟨enemy.position.x, enemy.position.y, -25 + newProgress * 50⟩ }])

/-- The tick body of `updateGame` after the phase guard.  `spawnRoll` is the
`Math.random()` sample of the spawn gate; `wallNow` the `Date.now()` sample
used by the targeting cache.  The terminal checks read the snapshot
(`state.lives`, pre-tick) and the final `set` overwrites the entity
collections with values derived from the snapshot. -/
def updateGameBody (s : GameState) (deltaTime spawnRoll wallNow : ℚ) : GameState :=
  let state := s
  let newGameTime := state.gameTime + deltaTime
  let waveTimeLimit : ℚ := 30
  let newWaveProgress := min (jsMod newGameTime waveTimeLimit / waveTimeLimit) 1
  let store1 :=
    if spawnRoll < 1 / 50 ∧ state.enemies.length < 10 then spawnEnemy s .normal else s
  let step2 := state.towers.foldl (towerStep state.enemies newGameTime wallNow) (store1, [])
  let step3 := state.enemies.foldl (enemyStep deltaTime) (step2.1, [])
  let updatedEnemies := step3.2
  let updatedLasers :=
    (state.laserBeams.map (fun l => { l with lifetime := l.lifetime - deltaTime })).filter
      (fun l => decide (0 < l.lifetime))
  let updatedParticles :=
    (state.particleEffects.map (fun p => { p with lifetime := p.lifetime - deltaTime })).filter
      (fun p => decide (0 < p.lifetime))
  let store4 := if state.lives ≤ 0 then { step3.1 with gamePhase := .ended } else step3.1
  let store5 :=
    if newWaveProgress ≥ 1 ∧ updatedEnemies.length = 0 then
      if state.currentWave ≥ state.totalWaves then { store4 with gamePhase := .ended }
      else store4
    else store4
  { store5 with
    gameTime := newGameTime
    waveProgress := newWaveProgress
    towers := step2.2
    enemies := updatedEnemies
    laserBeams := updatedLasers
    particleEffects := updatedParticles
    accuracy :=
      if state.totalShots > 0 then (state.hitShots : ℚ) / (state.totalShots : ℚ) else 0 }

/-- `updateGame(deltaTime)`: only the `playing` phase runs the tick body. -/
def updateGame (s : GameState) (deltaTime spawnRoll wallNow : ℚ) : GameState :=
  if s.gamePhase ≠ .playing then s
  else updateGameBody s deltaTime spawnRoll wallNow

/-- The initial store values of `useTowerDefense` (lines 102-139). -/
def baseState : GameState :=
  { gamePhase := .playing, currentWave := 1, totalWaves := 10, lives := 20, score := 0,
    money := 100, gameTime := 0, waveProgress := 0, towers := [], enemies := [],
    laserBeams := [], particleEffects := [], enemiesKilled := 0, accuracy := 0,
    totalShots := 0, hitShots := 0, laserPool := Pool.mk 100, particlePool := Pool.mk 200,
    targeting := ⟨.closest, [], 0⟩, nextId := 0 }

end Game

/-! ### Card store (src/client/src/lib/stores/useCards.tsx) -/

namespace Cards

inductive CardType where
  | tower
  | spell
  | upgrade
deriving DecidableEq, Repr

inductive Rarity where
  | common
  | uncommon
  | rare
  | epic
  | legendary
deriving DecidableEq, Repr

structure CardStats where
  damage : Option ℚ
  range : Option ℚ
  fireRate : Option ℚ
  areaOfEffect : Option ℚ
deriving DecidableEq, Repr

structure Card where
  id : ℕ
  name : String
  description : String
  type : CardType
  cost : ℤ
  stats : Option CardStats
  effect : Option String
  rarity : Rarity
deriving DecidableEq, Repr

structure CardsState where
  hand : List Card
  deck : List Card
  discardPile : List Card
  maxHandSize : ℕ
deriving DecidableEq, Repr

/-- JS `card.stats?.damage || default`: `undefined` and `0` are both falsy. -/
def statOr (stats : Option CardStats) (field : CardStats → Option ℚ) (dflt : ℚ) : ℚ :=
  match stats.bind field with
  | some v => if v = 0 then dflt else v
  | none => dflt

/-- The six candidate placement positions of `playTowerCard`. -/
def towerPositions : List Vec3 :=
  [⟨-5, 0, 0⟩, ⟨5, 0, 0⟩, ⟨-5, 0, 10⟩, ⟨5, 0, 10⟩, ⟨-5, 0, -10⟩, ⟨5, 0, -10⟩]

/-- `playTowerCard(card)`: first free position (no existing tower within
distance 2) or failure; placement delegates to `placeTower`, which deducts
its own 50-currency cost. -/
def playTowerCard (s : Game.GameState) (card : Card) : Bool × Game.GameState :=
  let availablePositions := towerPositions.filter
    (fun pos => ! s.towers.any (fun tower => distLtB tower.position pos 2))
  match availablePositions.head? with
  | none => (false, s)
  | some position => (true, Game.placeTower s position card.name)

/-- `playSpellCard(card)`: `damage_all` applies `stats.damage || 50` to the
snapshot of enemies via `damageEnemy`; `slow_all` halves every speed; any
other effect is rejected. -/
def playSpellCard (s : Game.GameState) (card : Card) : Bool × Game.GameState :=
  match card.effect with
  | none => (false, s)
  | some eff =>
      if eff = "damage_all" then
        let dmg := statOr card.stats (fun st => st.damage) 50
        (true, (s.enemies.map (fun e => e.id)).foldl
          (fun st eid => Game.damageEnemy st eid dmg) s)
      else if eff = "slow_all" then
        (true, { s with
          enemies := s.enemies.map (fun e => { e with speed := e.speed * (1 / 2) }) })
      else (false, s)

/-- `playUpgradeCard(card)`: upgrade the first tower, or fail when there is
none. -/
def playUpgradeCard (s : Game.GameState) (card : Card) : Bool × Game.GameState :=
  match s.towers.head? with
  | none => (false, s)
  | some towerToUpgrade =>
      (true, { s with
        towers := s.towers.map (fun tower =>
          if tower.id = towerToUpgrade.id then
            { tower with
              level := tower.level + 1
              damage := tower.damage + statOr card.stats (fun st => st.damage) 10
              range := tower.range + statOr card.stats (fun st => st.range) 1
              fireRate := tower.fireRate + statOr card.stats (fun st => st.fireRate) (1 / 2) }
          else tower) })

/-- `playCard(cardId)`: look up in hand, gate on `money >= cost`, dispatch
by card type; on success remove the card from the hand (`removeCardFromHand`
only filters the hand — the card is never appended to the discard pile) and
deduct the cost from the then-current money. -/
def playCard (cs : CardsState) (s : Game.GameState) (cardId : ℕ) :
    Bool × CardsState × Game.GameState :=
  match cs.hand.find? (fun c => c.id == cardId) with
  | none => (false, cs, s)
  | some card =>
      if s.money < card.cost then (false, cs, s)
      else
        let res :=
          match card.type with
          | .tower => playTowerCard s card
          | .spell => playSpellCard s card
          | .upgrade => playUpgradeCard s card
        if res.1 then
          (true,
            { cs with hand := cs.hand.filter (fun c => c.id != cardId) },
            { res.2 with money := res.2.money - card.cost })
        else (false, cs, res.2)

/-- `drawCard()`: reject when the hand is full or `money < 10`; when the
deck is empty, move the discard pile into the deck (the `shuffleDeck()` call
at that point permutes the still-empty old deck, so the recycled pile keeps
its order) and then draw the top card for 10 currency. -/
def drawCard (cs : CardsState) (s : Game.GameState) :
    Bool × CardsState × Game.GameState :=
  if cs.hand.length ≥ cs.maxHandSize then (false, cs, s)
  else if s.money < 10 then (false, cs, s)
  else if cs.deck.length = 0 then
    if cs.discardPile.length = 0 then (false, cs, s)
    else
      match cs.discardPile with
      | [] => (false, cs, s)
      | cardToDraw :: newDeck =>
          (true,
            { cs with hand := cs.hand ++ [cardToDraw], deck := newDeck, discardPile := [] },
            { s with money := s.money - 10 })
  else
    match cs.deck with
    | [] => (false, cs, s)
    | cardToDraw :: newDeck =>
        (true,
          { cs with hand := cs.hand ++ [cardToDraw], deck := newDeck },
          { s with money := s.money - 10 })

/-- `cardData.basicTower` with a concrete id. -/
def basicTowerCard (id : ℕ) : Card :=
  { id := id, name := "Basic Tower"
    description := "A simple tower that fires at enemies. Good damage and range for the cost."
    type := .tower, cost := 50, stats := some ⟨some 25, some 8, some 2, none⟩,
    effect := none, rarity := .common }

/-- `cardData.damageSpell` with a concrete id. -/
def damageSpellCard (id : ℕ) : Card :=
  { id := id, name := "Lightning Strike"
    description := "Deals damage to all enemies on the battlefield instantly."
    type := .spell, cost := 30, stats := some ⟨some 50, none, none, none⟩,
    effect := some "damage_all", rarity := .common }

end Cards

/-- Written from the claim, for comparison with `damageEnemy`: armor
diminishing-returns damage `raw * (1 - armor/(armor+100))`, floored at a
minimum of 1 damage, times the category-resistance multiplier
`(1 - resistance)`. -/
def specArmorDamage (raw armor resistance : ℚ) : ℚ :=
  max (raw * (1 - armor / (armor + 100))) 1 * (1 - resistance)

/-! ## Theorems

From here on the file contains only proofs about the
definitions above. -/

namespace Pool

theorem applyOp_maxSize (p : ObjectPool) (op : PoolOp) :
    (applyOp p op).maxSize = p.maxSize := by
  cases op with
  | acq =>
      simp only [applyOp, acquire]
      cases p.available.getLast? <;> rfl
  | rel o =>
      simp only [applyOp, release]
      split
      · split <;> rfl
      · rfl

theorem applyOp_available_le (p : ObjectPool) (op : PoolOp)
    (h : p.available.length ≤ p.maxSize) :
    (applyOp p op).available.length ≤ (applyOp p op).maxSize := by
  rw [applyOp_maxSize]
  cases op with
  | acq =>
      simp only [applyOp, acquire]
      cases hl : p.available.getLast? with
      | none => exact h
      | some obj =>
          simp only [List.length_dropLast]
          omega
  | rel o =>
      simp only [applyOp, release]
      split
      · split
        · rename_i hlt
          simp only [List.length_append, List.length_singleton]
          omega
        · exact h
      · exact h

theorem applyOps_available_le (p : ObjectPool) (ops : List PoolOp)
    (h : p.available.length ≤ p.maxSize) :
    (applyOps p ops).available.length ≤ (applyOps p ops).maxSize := by
  induction ops generalizing p with
  | nil => exact h
  | cons op ops ih =>
      exact ih (applyOp p op) (applyOp_available_le p op h)

theorem applyOps_maxSize (p : ObjectPool) (ops : List PoolOp) :
    (applyOps p ops).maxSize = p.maxSize := by
  induction ops generalizing p with
  | nil => rfl
  | cons op ops ih =>
      rw [applyOps, List.foldl_cons, ← applyOps, ih, applyOp_maxSize]

end Pool

namespace Targeting

theorem foldl_closestStep_some (e : TargetingEntity) (ts : List TargetableEntity)
    (b : TargetableEntity) (m : ℚ) :
    ts.foldl (closestStep e) (some (b, m)) =
      match specNearestD e ts with
      | none => some (b, m)
      | some (u, du) => if du < m then some (u, du) else some (b, m) := by
  induction ts generalizing b m with
  | nil => rfl
  | cons t ts ih =>
      rw [List.foldl_cons]
      show ts.foldl (closestStep e)
        (if Vec3.distSq e.position t.position < m
          then some (t, Vec3.distSq e.position t.position) else some (b, m)) = _
      by_cases hd : Vec3.distSq e.position t.position < m
      · rw [if_pos hd, ih]
        show _ = (match specNearestD e (t :: ts) with
          | none => some (b, m)
          | some (u, du) => if du < m then some (u, du) else some (b, m))
        rw [specNearestD]
        cases hs : specNearestD e ts with
        | none => simp [hd]
        | some p =>
            obtain ⟨u, du⟩ := p
            by_cases hu : du < Vec3.distSq e.position t.position
            · simp only [hu, if_pos]
              have : du < m := lt_trans hu hd
              simp [this]
            · simp [hu, hd]
      · rw [if_neg hd, ih]
        show _ = (match specNearestD e (t :: ts) with
          | none => some (b, m)
          | some (u, du) => if du < m then some (u, du) else some (b, m))
        rw [specNearestD]
        cases hs : specNearestD e ts with
        | none => simp [hd]
        | some p =>
            obtain ⟨u, du⟩ := p
            by_cases hu : du < Vec3.distSq e.position t.position
            · simp [hu]
            · have hdum : ¬ du < m :=
                not_lt.mpr (le_trans (not_lt.mp hd) (not_lt.mp hu))
              simp [hu, hdum, hd]

theorem findClosestTarget_eq_specNearest (e : TargetingEntity)
    (targets : List TargetableEntity) :
    findClosestTarget e targets = specNearest e targets := by
  cases targets with
  | nil => rfl
  | cons t ts =>
      rw [findClosestTarget, List.foldl_cons]
      show (ts.foldl (closestStep e) (some (t, Vec3.distSq e.position t.position))).map
        Prod.fst = _
      rw [foldl_closestStep_some, specNearest, specNearestD]

theorem specNearestD_isSome (e : TargetingEntity) (targets : List TargetableEntity)
    (h : targets ≠ []) : (specNearestD e targets).isSome := by
  cases targets with
  | nil => exact absurd rfl h
  | cons t ts =>
      rw [specNearestD]
      cases specNearestD e ts with
      | none => rfl
      | some p =>
          obtain ⟨u, du⟩ := p
          by_cases hu : du < Vec3.distSq e.position t.position <;> simp [hu]

theorem specNearestD_mem_min (e : TargetingEntity) (targets : List TargetableEntity)
    (u : TargetableEntity) (du : ℚ) (h : specNearestD e targets = some (u, du)) :
    u ∈ targets ∧ du = Vec3.distSq e.position u.position ∧
      ∀ v ∈ targets, du ≤ Vec3.distSq e.position v.position := by
  induction targets generalizing u du with
  | nil => simp [specNearestD] at h
  | cons t ts ih =>
      rw [specNearestD] at h
      cases hs : specNearestD e ts with
      | none =>
          rw [hs] at h
          dsimp only at h
          simp only [Option.some.injEq, Prod.mk.injEq] at h
          obtain ⟨rfl, rfl⟩ := h
          have hempty : ts = [] := by
            by_contra hne
            have := specNearestD_isSome e ts hne
            rw [hs] at this
            simp at this
          subst hempty
          refine ⟨List.mem_singleton_self t, rfl, ?_⟩
          intro v hv
          rw [List.mem_singleton] at hv
          subst hv
          exact le_refl _
      | some p =>
          obtain ⟨w, dw⟩ := p
          rw [hs] at h
          dsimp only at h
          obtain ⟨hwmem, hwd, hwmin⟩ := ih w dw hs
          by_cases hlt : dw < Vec3.distSq e.position t.position
          · rw [if_pos hlt] at h
            simp only [Option.some.injEq, Prod.mk.injEq] at h
            obtain ⟨rfl, rfl⟩ := h
            refine ⟨List.mem_cons_of_mem t hwmem, hwd, ?_⟩
            intro v hv
            rcases List.mem_cons.mp hv with hv | hv
            · subst hv; exact le_of_lt hlt
            · exact hwmin v hv
          · rw [if_neg hlt] at h
            simp only [Option.some.injEq, Prod.mk.injEq] at h
            obtain ⟨rfl, rfl⟩ := h
            refine ⟨List.mem_cons_self t ts, rfl, ?_⟩
            intro v hv
            rcases List.mem_cons.mp hv with hv | hv
            · subst hv; exact le_refl _
            · exact le_trans (not_lt.mp hlt) (hwmin v hv)

end Targeting

namespace Game

theorem addParticleEffect_gamePhase (s : GameState) (pos : Vec3) (t : ParticleType)
    (color : String) (lifetime : ℚ) :
    (addParticleEffect s pos t color lifetime).gamePhase = s.gamePhase := rfl

theorem damageEnemy_gamePhase (s : GameState) (eid : ℕ) (dmg : ℚ) :
    (damageEnemy s eid dmg).gamePhase = s.gamePhase := by
  rw [damageEnemy]
  split
  · rfl
  · dsimp only
    split
    · rfl
    · rw [addParticleEffect_gamePhase]

theorem fireLaser_gamePhase (s : GameState) (towerId targetId : ℕ) :
    (fireLaser s towerId targetId).gamePhase = s.gamePhase := by
  rw [fireLaser]
  split
  · rw [damageEnemy_gamePhase]
  · rfl

theorem towerStep_gamePhase (stateEnemies : List Enemy) (newGameTime wallNow : ℚ)
    (acc : GameState × List Tower) (tower : Tower) :
    (towerStep stateEnemies newGameTime wallNow acc tower).1.gamePhase =
      acc.1.gamePhase := by
  rw [towerStep]
  split <;> (try split) <;> (try split) <;>
    first
    | rfl
    | simp [fireLaser_gamePhase]

theorem enemyStep_gamePhase (deltaTime : ℚ) (acc : GameState × List Enemy)
    (enemy : Enemy) :
    (enemyStep deltaTime acc enemy).1.gamePhase = acc.1.gamePhase := by
  rw [enemyStep]
  split
  · rfl
  · rfl

theorem foldl_fst_gamePhase {α β : Type} (f : GameState × List β → α → GameState × List β)
    (hf : ∀ acc x, (f acc x).1.gamePhase = acc.1.gamePhase) (l : List α) :
    ∀ acc, (List.foldl f acc l).1.gamePhase = acc.1.gamePhase := by
  induction l with
  | nil => intro acc; rfl
  | cons x xs ih =>
      intro acc
      rw [List.foldl_cons, ih, hf]

/-- JS remainder against the 30-second wave budget is always below 30. -/
theorem jsMod_lt_thirty (x : ℚ) : jsMod x 30 < 30 := by
  rw [jsMod, ratTrunc]
  by_cases h : 0 ≤ x / 30
  · rw [if_pos h]
    have h1 : x / 30 < (⌊x / 30⌋ : ℚ) + 1 := Int.lt_floor_add_one _
    have h2 : x < ((⌊x / 30⌋ : ℚ) + 1) * 30 :=
      (div_lt_iff₀ (by norm_num : (0:ℚ) < 30)).mp h1
    linarith
  · rw [if_neg h]
    have h1 : x / 30 ≤ (⌈x / 30⌉ : ℚ) := Int.le_ceil _
    have h2 : x ≤ (⌈x / 30⌉ : ℚ) * 30 :=
      (div_le_iff₀ (by norm_num : (0:ℚ) < 30)).mp h1
    linarith

/-- The recomputed wave-progress fraction is strictly below 1 on every tick. -/
theorem newWaveProgress_lt_one (x : ℚ) : min (jsMod x 30 / 30) 1 < 1 :=
  lt_of_le_of_lt (min_le_left _ _)
    ((div_lt_one (by norm_num : (0:ℚ) < 30)).mpr (jsMod_lt_thirty x))

theorem ite_gamePhase_eq {c : Prop} [Decidable c] {a b : GameState} {x : GamePhase}
    (ha : c → a.gamePhase = x) (hb : ¬ c → b.gamePhase = x) :
    (if c then a else b).gamePhase = x := by
  split
  · exact ha ‹c›
  · exact hb ‹¬ c›

theorem updateGameBody_gamePhase_of_lives (s : GameState) (dt roll wall : ℚ)
    (hl : s.lives ≤ 0) :
    (updateGameBody s dt roll wall).gamePhase = .ended := by
  simp only [updateGameBody]
  rw [if_pos hl]
  exact ite_gamePhase_eq
    (fun _ => ite_gamePhase_eq (fun _ => rfl) (fun _ => rfl)) (fun _ => rfl)

theorem updateGameBody_gamePhase_of_pos_lives (s : GameState) (dt roll wall : ℚ)
    (hl : ¬ s.lives ≤ 0) :
    (updateGameBody s dt roll wall).gamePhase = s.gamePhase := by
  simp only [updateGameBody]
  rw [if_neg hl]
  refine ite_gamePhase_eq
    (fun hAB => absurd hAB.1 (not_le.mpr (newWaveProgress_lt_one _))) (fun _ => ?_)
  rw [foldl_fst_gamePhase _ (enemyStep_gamePhase dt),
    foldl_fst_gamePhase _ (towerStep_gamePhase s.enemies (s.gameTime + dt) wall)]
  split
  · rfl
  · rfl

theorem updateGameBody_waveProgress (s : GameState) (dt roll wall : ℚ) :
    (updateGameBody s dt roll wall).waveProgress =
      min (jsMod (s.gameTime + dt) 30 / 30) 1 := rfl

end Game

namespace Cards

theorem playTowerCard_false (s : Game.GameState) (card : Card)
    (h : (playTowerCard s card).1 = false) : (playTowerCard s card).2 = s := by
  rw [playTowerCard] at h ⊢
  cases hh : (towerPositions.filter
      (fun pos => ! s.towers.any (fun tower => distLtB tower.position pos 2))).head? with
  | none => rfl
  | some p =>
      rw [hh] at h
      simp at h

theorem playSpellCard_false (s : Game.GameState) (card : Card)
    (h : (playSpellCard s card).1 = false) : (playSpellCard s card).2 = s := by
  rw [playSpellCard] at h ⊢
  cases heff : card.effect with
  | none => rfl
  | some eff =>
      rw [heff] at h
      dsimp only at h ⊢
      by_cases h1 : eff = "damage_all"
      · rw [if_pos h1] at h
        exact absurd h (by simp)
      · rw [if_neg h1] at h ⊢
        by_cases h2 : eff = "slow_all"
        · rw [if_pos h2] at h
          exact absurd h (by simp)
        · rw [if_neg h2]

theorem playUpgradeCard_false (s : Game.GameState) (card : Card)
    (h : (playUpgradeCard s card).1 = false) : (playUpgradeCard s card).2 = s := by
  rw [playUpgradeCard] at h ⊢
  cases hh : s.towers.head? with
  | none => rfl
  | some t =>
      rw [hh] at h
      simp at h

end Cards

/-! ### Claim C3 (pool capacity) -/

/-- C3 counterexample: the claimed invariant
`available.length + inUse.size ≤ maxSize` is violated after two `acquire()`
calls on a pool of capacity 1 — `acquire` on an empty pool constructs a new
object, so the number of leased objects is unbounded. -/
theorem c3_pool_capacity_counterexample :
    (Pool.applyOps (Pool.mk 1) [Pool.PoolOp.acq, Pool.PoolOp.acq]).available.length +
      (Pool.applyOps (Pool.mk 1) [Pool.PoolOp.acq, Pool.PoolOp.acq]).inUse.length = 2 ∧
    (Pool.applyOps (Pool.mk 1) [Pool.PoolOp.acq, Pool.PoolOp.acq]).maxSize = 1 := by
  decide

/-- C3 (amended): after every finite sequence of `acquire()`/`release()`
calls on an `ObjectPool` of capacity `maxSize`, `available.length` never
exceeds `maxSize` (release discards objects beyond capacity); the in-use
count, and hence `available.length + inUse.size`, is unbounded because
`acquire` on an empty pool constructs a fresh object. -/
theorem c3_pool_available_le_capacity (maxSize : ℕ) (ops : List Pool.PoolOp) :
    (Pool.applyOps (Pool.mk maxSize) ops).available.length ≤ maxSize := by
  have h0 : (Pool.mk maxSize).available.length ≤ (Pool.mk maxSize).maxSize := by
    simp [Pool.mk]
  have h := Pool.applyOps_available_le (Pool.mk maxSize) ops h0
  rwa [Pool.applyOps_maxSize] at h

/-! ### Claim C5 (nearest-target selection) -/

/-- C5 counterexample: `findBestTarget` under the `closest` strategy does
not always return the minimum-distance in-range hostile.  A first call
(wall time 0) targets hostile 2; a second call 50 ms later with a strictly
closer in-range hostile 1 prepended still returns the cached hostile 2. -/
theorem c5_cached_target_not_nearest :
    (Targeting.findBestTarget
        (Targeting.findBestTarget ⟨.closest, [], 0⟩ 0 ⟨0, ⟨0, 0, 0⟩, 8, none⟩
          [⟨2, ⟨5, 0, 0⟩, none⟩]).2
        50 ⟨0, ⟨0, 0, 0⟩, 8, none⟩
        [⟨1, ⟨1, 0, 0⟩, none⟩, ⟨2, ⟨5, 0, 0⟩, none⟩]).1 = some 2 ∧
    Targeting.isInRange ⟨0, ⟨0, 0, 0⟩, 8, none⟩ ⟨1, ⟨1, 0, 0⟩, none⟩ = true ∧
    Vec3.distSq (⟨0, 0, 0⟩ : Vec3) ⟨1, 0, 0⟩ <
      Vec3.distSq (⟨0, 0, 0⟩ : Vec3) ⟨5, 0, 0⟩ := by
  refine ⟨?_, ?_, ?_⟩
  · norm_num [Targeting.findBestTarget, Targeting.recompute, Targeting.lookupCache,
      Targeting.setCache, Targeting.cacheUpdateInterval, Targeting.isInRange, distLeB,
      Vec3.distSq, Targeting.findClosestTarget, Targeting.closestStep, List.foldl,
      List.filter, List.find?]
  · norm_num [Targeting.isInRange, distLeB, Vec3.distSq]
  · norm_num [Vec3.distSq]

/-- C5 (amended): whenever the 100 ms target memo is not consulted (no
cached entry for the defender, or the refresh window has elapsed),
`findBestTarget` under the `closest` strategy returns `null` exactly when no
hostile is within range, and otherwise the id of an in-range hostile at
minimum distance — namely the earliest-enumerated one (strict `<` scan),
formalized as `specNearest` of the in-range sublist.  A warm cache may
instead return a previously cached, still-in-range hostile that is not the
closest. -/
theorem c5_nearest_no_cache (ts : Targeting.TargetingState) (now : ℚ)
    (e : Targeting.TargetingEntity) (pts : List Targeting.TargetableEntity)
    (hstrat : ts.strategy = .closest)
    (hcache : Targeting.lookupCache ts.targetCache e.id = none ∨
      Targeting.cacheUpdateInterval ≤ now - ts.lastUpdateTime) :
    ((Targeting.findBestTarget ts now e pts).1 = none ↔
      ∀ t ∈ pts, Targeting.isInRange e t = false) ∧
    (∀ tid, (Targeting.findBestTarget ts now e pts).1 = some tid →
      ∃ t ∈ pts, t.id = tid ∧ Targeting.isInRange e t = true ∧
        ∀ u ∈ pts, Targeting.isInRange e u = true →
          Vec3.distSq e.position t.position ≤ Vec3.distSq e.position u.position) ∧
    (Targeting.findBestTarget ts now e pts).1 =
      (Targeting.specNearest e (pts.filter (Targeting.isInRange e))).map
        (fun t => t.id) := by
  have hcompute : Targeting.findBestTarget ts now e pts =
      Targeting.recompute ts now e pts := by
    rw [Targeting.findBestTarget]
    by_cases hnow : now - ts.lastUpdateTime < Targeting.cacheUpdateInterval
    · rw [if_pos hnow]
      have hl : Targeting.lookupCache ts.targetCache e.id = none := by
        rcases hcache with h | h
        · exact h
        · exact absurd hnow (not_lt.mpr h)
      rw [hl]
    · rw [if_neg hnow]
  rw [hcompute]
  simp only [Targeting.recompute, hstrat]
  by_cases hL : (pts.filter (Targeting.isInRange e)).length = 0
  · have hnil : pts.filter (Targeting.isInRange e) = [] := List.length_eq_zero.mp hL
    rw [if_pos hL]
    refine ⟨?_, ?_, ?_⟩
    · simp only [true_iff]
      intro t ht
      by_contra hne
      have htrue : Targeting.isInRange e t = true := by
        cases hfb : Targeting.isInRange e t
        · exact absurd hfb hne
        · rfl
      have : t ∈ pts.filter (Targeting.isInRange e) :=
        List.mem_filter.mpr ⟨ht, htrue⟩
      rw [hnil] at this
      exact absurd this (List.not_mem_nil t)
    · intro tid htid
      exact absurd htid (by simp)
    · rw [hnil]
      rfl
  · rw [if_neg hL]
    have hne : pts.filter (Targeting.isInRange e) ≠ [] := by
      intro hnil
      exact hL (by rw [hnil]; rfl)
    obtain ⟨⟨u, du⟩, hu⟩ :=
      Option.isSome_iff_exists.mp
        (Targeting.specNearestD_isSome e (pts.filter (Targeting.isInRange e)) hne)
    obtain ⟨humem, hud, humin⟩ :=
      Targeting.specNearestD_mem_min e (pts.filter (Targeting.isInRange e)) u du hu
    have hBest : Targeting.findClosestTarget e (pts.filter (Targeting.isInRange e)) =
        some u := by
      rw [Targeting.findClosestTarget_eq_specNearest, Targeting.specNearest, hu]
      rfl
    rw [hBest]
    have humem' : u ∈ pts ∧ Targeting.isInRange e u = true := by
      have := List.mem_filter.mp humem
      exact ⟨this.1, this.2⟩
    refine ⟨?_, ?_, ?_⟩
    · simp only [Option.map_some']
      constructor
      · intro h
        exact absurd h (by simp)
      · intro hall
        have hf := hall u humem'.1
        rw [humem'.2] at hf
        exact absurd hf (by simp)
    · intro tid htid
      simp only [Option.map_some', Option.some.injEq] at htid
      refine ⟨u, humem'.1, htid, humem'.2, ?_⟩
      intro v hv hvr
      have hvf : v ∈ pts.filter (Targeting.isInRange e) :=
        List.mem_filter.mpr ⟨hv, hvr⟩
      have := humin v hvf
      rw [hud] at this
      exact this
    · rw [Targeting.specNearest, hu]
      rfl

/-- C5 witness for `c5_nearest_no_cache` at a concrete input. -/
theorem c5_nearest_no_cache_witness :
    (⟨Targeting.Strategy.closest, [], 0⟩ : Targeting.TargetingState).strategy =
        .closest ∧
    (Targeting.findBestTarget ⟨.closest, [], 0⟩ 0 ⟨7, ⟨0, 0, 0⟩, 8, none⟩
        [⟨1, ⟨1, 0, 0⟩, none⟩, ⟨2, ⟨5, 0, 0⟩, none⟩]).1 =
      (Targeting.specNearest ⟨7, ⟨0, 0, 0⟩, 8, none⟩
          ([⟨1, ⟨1, 0, 0⟩, none⟩, ⟨2, ⟨5, 0, 0⟩, none⟩].filter
            (Targeting.isInRange ⟨7, ⟨0, 0, 0⟩, 8, none⟩))).map
        (fun t => t.id) :=
  ⟨rfl,
    (c5_nearest_no_cache ⟨.closest, [], 0⟩ 0 ⟨7, ⟨0, 0, 0⟩, 8, none⟩
        [⟨1, ⟨1, 0, 0⟩, none⟩, ⟨2, ⟨5, 0, 0⟩, none⟩] rfl
        (Or.inl (by decide))).2.2⟩

/-! ### Claim C7 (lead-target intercept solve) -/

/-- C7: at shooter `(0,0,0)`, hostile at `(1,0,0)` moving with velocity
`(-1,0,0)` toward the shooter, projectile speed 2, the discriminant is 16
(`sqrtDisc = 4`), the intercept roots are `-1` and `1/3`, and a non-negative
intercept time `1/3` exists (the projectile covers exactly the distance to
the hostile's projected position in that time) — yet `calculateFiringSolution`
takes `t = min(t1, t2) = -1 < 0` and falls back to the hostile's current
position instead of projecting by `1/3`. -/
theorem c7_firing_solution_min_root_bug :
    Targeting.calculateFiringSolution ⟨0, 0, 0⟩ ⟨1, 0, 0⟩ (some ⟨-1, 0, 0⟩) 2 4 =
      ⟨1, 0, 0⟩ ∧
    (0:ℚ) ≤ 4 ∧
    (4:ℚ) * 4 =
      (2 * Targeting.dot ⟨-1, 0, 0⟩ (Targeting.vsub ⟨1, 0, 0⟩ ⟨0, 0, 0⟩)) ^ 2 -
        4 * (Targeting.lengthSq ⟨-1, 0, 0⟩ - 2 * 2) *
          Targeting.lengthSq (Targeting.vsub ⟨1, 0, 0⟩ ⟨0, 0, 0⟩) ∧
    (0:ℚ) ≤ 1 / 3 ∧
    Vec3.distSq ⟨0, 0, 0⟩
        (Targeting.predictTargetPosition ⟨1, 0, 0⟩ (some ⟨-1, 0, 0⟩) (1 / 3)) =
      (2 * (1 / 3)) ^ 2 ∧
    Targeting.predictTargetPosition ⟨1, 0, 0⟩ (some ⟨-1, 0, 0⟩) (1 / 3) ≠
      (⟨1, 0, 0⟩ : Vec3) := by
  refine ⟨?_, by norm_num, ?_, by norm_num, ?_, ?_⟩
  · norm_num [Targeting.calculateFiringSolution, Targeting.vsub, Targeting.dot,
      Targeting.lengthSq, Targeting.predictTargetPosition]
  · norm_num [Targeting.dot, Targeting.lengthSq, Targeting.vsub]
  · norm_num [Targeting.predictTargetPosition, Vec3.distSq]
  · norm_num [Targeting.predictTargetPosition, Vec3.mk.injEq]

/-! ### Claim C9 (inert phases) -/

/-- C9: when the session phase is `menu`, `paused`, or `ended` (anything but
`playing`), `updateGame` returns the state completely unchanged — entity
collections, counters, `gameTime`, `waveProgress`, and the phase itself. -/
theorem c9_non_playing_tick_inert (s : Game.GameState) (dt roll wall : ℚ)
    (h : s.gamePhase ≠ .playing) :
    Game.updateGame s dt roll wall = s := by
  rw [Game.updateGame, if_pos h]

/-- C9 witness: a `paused` state is untouched by a tick. -/
theorem c9_non_playing_tick_inert_witness :
    Game.updateGame { Game.baseState with gamePhase := .paused } 1 1 0 =
      { Game.baseState with gamePhase := .paused } :=
  c9_non_playing_tick_inert _ 1 1 0 (by decide)

/-! ### Claim C2 (breach at lives = 1) -/

/-- C2 counterexample: in phase `playing` with lives = 1 and a single
hostile whose path progress crosses 1 this tick, the tick removes the
hostile and decrements lives to 0, yet the phase stays `playing`: the loss
check reads the pre-tick snapshot lives (1 > 0), so the session does not
end on the breach tick, contradicting the claim that the phase is set to
`ended` during that same tick. -/
theorem c2_breach_same_tick_counterexample :
    (Game.updateGame
        { Game.baseState with
            lives := 1
            enemies := [⟨1, ⟨0, 1, 24⟩, .normal, 100, 100, 1 / 50, 99 / 100, 10⟩] }
        1 1 0).lives = 0 ∧
    (Game.updateGame
        { Game.baseState with
            lives := 1
            enemies := [⟨1, ⟨0, 1, 24⟩, .normal, 100, 100, 1 / 50, 99 / 100, 10⟩] }
        1 1 0).gamePhase = .playing ∧
    (Game.updateGame
        { Game.baseState with
            lives := 1
            enemies := [⟨1, ⟨0, 1, 24⟩, .normal, 100, 100, 1 / 50, 99 / 100, 10⟩] }
        1 1 0).enemies = [] := by
  refine ⟨?_, ?_, ?_⟩ <;>
    norm_num [Game.updateGame, Game.updateGameBody, Game.baseState, Game.towerStep,
      Game.enemyStep, Game.jsMod, Game.ratTrunc, Game.spawnEnemy, min_def]

/-- C2 (amended): the loss check reads the snapshot (pre-tick) lives, so a
breach tick that brings lives from 1 to 0 leaves the phase `playing`; the
phase instead becomes `ended` on the next tick (any tick entered in phase
`playing` with lives ≤ 0 ends the session), and once the phase is `ended`
every subsequent `updateGame` call leaves the whole state unchanged until
restart. -/
theorem c2_loss_check_next_tick (s : Game.GameState) (dt roll wall : ℚ) :
    (s.gamePhase = .playing → s.lives ≤ 0 →
      (Game.updateGame s dt roll wall).gamePhase = .ended) ∧
    (s.gamePhase = .ended → Game.updateGame s dt roll wall = s) := by
  constructor
  · intro hp hl
    rw [Game.updateGame, if_neg (by rw [hp]; exact fun h => h rfl)]
    exact Game.updateGameBody_gamePhase_of_lives s dt roll wall hl
  · intro hp
    rw [Game.updateGame, if_pos (by rw [hp]; exact fun h => Game.GamePhase.noConfusion h)]

/-- C2 witness for `c2_loss_check_next_tick` at concrete states. -/
theorem c2_loss_check_next_tick_witness :
    (Game.updateGame { Game.baseState with lives := 0 } 1 1 0).gamePhase = .ended ∧
    Game.updateGame { Game.baseState with gamePhase := .ended } 1 1 0 =
      { Game.baseState with gamePhase := .ended } :=
  ⟨(c2_loss_check_next_tick _ 1 1 0).1 rfl (by decide),
    (c2_loss_check_next_tick _ 1 1 0).2 rfl⟩

/-! ### Claim C10 (victory branch unreachable) -/

/-- C10: the recomputed wave-progress fraction `min((t % 30)/30, 1)` is
strictly below 1 after every tick, so the victory branch of the terminal
check (which requires wave-progress ≥ 1) can never fire: `updateGame` sets
the phase to `ended` only via the loss check. -/
theorem c10_no_victory_transition (s : Game.GameState) (dt roll wall : ℚ) :
    ((Game.updateGame s dt roll wall).gamePhase = .ended →
      s.gamePhase = .ended ∨ s.lives ≤ 0) ∧
    (s.gamePhase = .playing → (Game.updateGame s dt roll wall).waveProgress < 1) := by
  constructor
  · intro hend
    by_cases hp : s.gamePhase = Game.GamePhase.playing
    · by_cases hl : s.lives ≤ 0
      · exact Or.inr hl
      · exfalso
        rw [Game.updateGame, if_neg (by rw [hp]; exact fun h => h rfl),
          Game.updateGameBody_gamePhase_of_pos_lives s dt roll wall hl, hp] at hend
        exact Game.GamePhase.noConfusion hend
    · rw [Game.updateGame, if_pos hp] at hend
      exact Or.inl hend
  · intro hp
    rw [Game.updateGame, if_neg (by rw [hp]; exact fun h => h rfl),
      Game.updateGameBody_waveProgress]
    exact Game.newWaveProgress_lt_one _

/-- C10 witness for `c10_no_victory_transition` at concrete states. -/
theorem c10_no_victory_transition_witness :
    ({ Game.baseState with gamePhase := Game.GamePhase.ended }.gamePhase =
        Game.GamePhase.ended ∨
      { Game.baseState with gamePhase := Game.GamePhase.ended }.lives ≤ 0) ∧
    (Game.updateGame Game.baseState 1 1 0).waveProgress < 1 :=
  ⟨(c10_no_victory_transition { Game.baseState with gamePhase := .ended } 1 1 0).1 rfl,
    (c10_no_victory_transition Game.baseState 1 1 0).2 rfl⟩

/-! ### Claim C4 (damage formula) -/

/-- C4 counterexample: `damageEnemy` applies no armor/resistance formula
and no minimum-1 clamp.  Dealing raw damage 0 to a hostile with health 100
leaves its health at 100, whereas the claimed formula (with the hostile's
nonexistent armor and resistance read as 0) mandates an effective damage of
`max (0 * 1) 1 = 1`, i.e. health 99. -/
theorem c4_damage_formula_counterexample :
    ((Game.damageEnemy
          { Game.baseState with
              enemies := [⟨1, ⟨0, 1, 0⟩, .normal, 100, 100, 1 / 50, 0, 10⟩] }
          1 0).enemies.find? (fun e => e.id == 1)).map (fun e => e.health) =
      some 100 ∧
    specArmorDamage 0 0 0 = 1 ∧
    (100 : ℚ) - specArmorDamage 0 0 0 ≠ 100 := by
  refine ⟨?_, ?_, ?_⟩
  · norm_num [Game.damageEnemy, Game.baseState, Game.addParticleEffect, List.find?]
  · norm_num [specArmorDamage]
  · norm_num [specArmorDamage]

/-- C4 (amended): hostiles carry no armor or resistance fields;
`damageEnemy` subtracts the raw damage directly, flooring the new health at
0: a hit that reaches 0 removes the hostile and credits its reward to money
and score, otherwise the health is updated in place and money is
unchanged. -/
theorem c4_damage_amended (s : Game.GameState) (eid : ℕ) (dmg : ℚ) (e : Game.Enemy)
    (hfind : s.enemies.find? (fun x => x.id == eid) = some e) :
    (max 0 (e.health - dmg) ≤ 0 →
      (Game.damageEnemy s eid dmg).enemies = s.enemies.filter (fun x => x.id != eid) ∧
      (Game.damageEnemy s eid dmg).money = s.money + e.reward ∧
      (Game.damageEnemy s eid dmg).score = s.score + e.reward) ∧
    (0 < max 0 (e.health - dmg) →
      (Game.damageEnemy s eid dmg).enemies =
        s.enemies.map (fun x =>
          if x.id = eid then { x with health := max 0 (e.health - dmg) } else x) ∧
      (Game.damageEnemy s eid dmg).money = s.money) := by
  rw [Game.damageEnemy, hfind]
  dsimp only
  constructor
  · intro h
    rw [if_pos h]
    exact ⟨rfl, rfl, rfl⟩
  · intro h
    rw [if_neg (not_le.mpr h)]
    exact ⟨rfl, rfl⟩

/-- C4 witness for `c4_damage_amended`: a 100-damage hit kills the
health-100 hostile, removing it and crediting its reward. -/
theorem c4_damage_amended_witness :
    (Game.damageEnemy
        { Game.baseState with
            enemies := [⟨1, ⟨0, 1, 0⟩, .normal, 100, 100, 1 / 50, 0, 10⟩] }
        1 100).enemies =
      [(⟨1, ⟨0, 1, 0⟩, .normal, 100, 100, 1 / 50, 0, 10⟩ : Game.Enemy)].filter
        (fun x => x.id != 1) ∧
    (Game.damageEnemy
        { Game.baseState with
            enemies := [⟨1, ⟨0, 1, 0⟩, .normal, 100, 100, 1 / 50, 0, 10⟩] }
        1 100).money =
      { Game.baseState with
          enemies := [⟨1, ⟨0, 1, 0⟩, .normal, 100, 100, 1 / 50, 0, 10⟩] }.money + 10 ∧
    (Game.damageEnemy
        { Game.baseState with
            enemies := [⟨1, ⟨0, 1, 0⟩, .normal, 100, 100, 1 / 50, 0, 10⟩] }
        1 100).score =
      { Game.baseState with
          enemies := [⟨1, ⟨0, 1, 0⟩, .normal, 100, 100, 1 / 50, 0, 10⟩] }.score + 10 :=
  (c4_damage_amended _ 1 100 ⟨1, ⟨0, 1, 0⟩, .normal, 100, 100, 1 / 50, 0, 10⟩
      (by norm_num [List.find?])).1 (by norm_num)

/-! ### Claim C6 (non-negative currency and lives) -/

/-- C6 counterexample: playing the basic tower card (cost 50) with exactly
50 currency succeeds and ends with currency −50: `placeTower` deducts its
own 50 placement cost and `playCard` then deducts the 50 card cost again,
driving the balance negative instead of rejecting. -/
theorem c6_negative_money_counterexample :
    (Cards.playCard ⟨[Cards.basicTowerCard 1], [], [], 7⟩
        { Game.baseState with money := 50 } 1).1 = true ∧
    (Cards.playCard ⟨[Cards.basicTowerCard 1], [], [], 7⟩
        { Game.baseState with money := 50 } 1).2.2.money = -50 := by
  refine ⟨?_, ?_⟩ <;>
    norm_num [Cards.playCard, Cards.playTowerCard, Cards.basicTowerCard,
      Cards.towerPositions, Game.placeTower, Game.baseState, distLtB, Vec3.distSq,
      List.find?, List.filter]

/-- C6 (amended): the two operations that check currency before deducting —
`placeTower` (placement) and `drawCard` (card draw) — each preserve a
non-negative balance; the claim fails globally because `playCard`
double-charges tower cards (counterexample) and breach events decrement
lives without a floor. -/
theorem c6_place_draw_preserve_money (s : Game.GameState) (pos : Vec3) (ty : String)
    (cs : Cards.CardsState) (h : 0 ≤ s.money) :
    0 ≤ (Game.placeTower s pos ty).money ∧
    0 ≤ (Cards.drawCard cs s).2.2.money := by
  constructor
  · rw [Game.placeTower]
    dsimp only
    split
    · rename_i hc
      dsimp only
      omega
    · exact h
  · rw [Cards.drawCard]
    split
    · exact h
    · split
      · exact h
      · split
        · split
          · exact h
          · split
            · exact h
            · dsimp only
              rename_i hm _ _
              omega
        · split
          · exact h
          · dsimp only
            rename_i hm _
            omega

/-- C6 witness for `c6_place_draw_preserve_money` at a concrete state. -/
theorem c6_place_draw_preserve_money_witness :
    0 ≤ (Game.placeTower Game.baseState ⟨0, 0, 0⟩ "basic").money ∧
    0 ≤ (Cards.drawCard ⟨[], [Cards.basicTowerCard 2], [], 7⟩ Game.baseState).2.2.money :=
  c6_place_draw_preserve_money Game.baseState ⟨0, 0, 0⟩ "basic"
    ⟨[], [Cards.basicTowerCard 2], [], 7⟩ (by decide)

/-! ### Claim C8 (drawCard contract) -/

/-- C8: `drawCard` rejects — returning false with hand, deck, discard pile
and currency unchanged — when the hand is at `maxHandSize` or currency is
below the draw cost 10; when the draw pile is empty and the discard pile is
not, the discard pile becomes the new draw pile before the top card is
drawn (the `shuffleDeck()` call at that moment permutes the still-empty old
deck, so the recycled pile keeps its order — the identity permutation); and
in every case the total card count over hand, deck and discard pile is
unchanged. -/
theorem c8_drawCard_contract (cs : Cards.CardsState) (s : Game.GameState) :
    (cs.hand.length ≥ cs.maxHandSize → Cards.drawCard cs s = (false, cs, s)) ∧
    (s.money < 10 → Cards.drawCard cs s = (false, cs, s)) ∧
    ((Cards.drawCard cs s).2.1.hand.length + (Cards.drawCard cs s).2.1.deck.length +
        (Cards.drawCard cs s).2.1.discardPile.length =
      cs.hand.length + cs.deck.length + cs.discardPile.length) ∧
    (∀ c rest, cs.deck = [] → cs.discardPile = c :: rest →
      cs.hand.length < cs.maxHandSize → ¬ s.money < 10 →
      Cards.drawCard cs s =
        (true, { cs with hand := cs.hand ++ [c], deck := rest, discardPile := [] },
          { s with money := s.money - 10 })) := by
  refine ⟨?_, ?_, ?_, ?_⟩
  · intro h
    rw [Cards.drawCard, if_pos h]
  · intro h
    rw [Cards.drawCard]
    split <;> first | rfl | rw [if_pos h]
  · rw [Cards.drawCard]
    split
    · rfl
    · split
      · rfl
      · split
        · split
          · rfl
          · split
            · rfl
            · simp_all [List.length_append]
              try omega
        · split
          · rfl
          · simp_all [List.length_append]
            try omega
  · intro c rest hdeck hdisc hhand hmoney
    rw [Cards.drawCard, if_neg (not_le.mpr hhand), if_neg hmoney,
      if_pos (by rw [hdeck]; rfl)]
    rw [if_neg (by rw [hdisc]; simp)]
    rw [hdisc]

/-- C8 witness for `c8_drawCard_contract`: drawing with an empty draw pile
recycles the one-card discard pile and draws it. -/
theorem c8_drawCard_contract_witness :
    Cards.drawCard ⟨[], [], [Cards.damageSpellCard 3], 7⟩ Game.baseState =
      (true,
        { (⟨[], [], [Cards.damageSpellCard 3], 7⟩ : Cards.CardsState) with
            hand := [] ++ [Cards.damageSpellCard 3]
            deck := ([] : List Cards.Card)
            discardPile := ([] : List Cards.Card) },
        { Game.baseState with money := Game.baseState.money - 10 }) :=
  (c8_drawCard_contract ⟨[], [], [Cards.damageSpellCard 3], 7⟩ Game.baseState).2.2.2
    (Cards.damageSpellCard 3) [] rfl rfl (by decide) (by decide)

/-! ### Claim C1 (playCard atomicity) -/

/-- C1 counterexample: successfully playing the damage spell (cost 30) with
no hostiles on the field removes the card from the hand and deducts the
cost, but the card is never added to the discard pile — the discard pile
stays empty and the total card count over hand, deck and discard drops
from 1 to 0, contradicting the claimed hand → discard move. -/
theorem c1_discard_counterexample :
    (Cards.playCard ⟨[Cards.damageSpellCard 1], [], [], 7⟩ Game.baseState 1).1 = true ∧
    (Cards.playCard ⟨[Cards.damageSpellCard 1], [], [], 7⟩ Game.baseState 1).2.1.hand =
      [] ∧
    (Cards.playCard ⟨[Cards.damageSpellCard 1], [], [],
        7⟩ Game.baseState 1).2.1.discardPile = [] ∧
    (Cards.playCard ⟨[Cards.damageSpellCard 1], [], [], 7⟩ Game.baseState 1).2.2.money =
      Game.baseState.money - 30 := by
  refine ⟨?_, ?_, ?_, ?_⟩ <;>
    norm_num [Cards.playCard, Cards.playSpellCard, Cards.damageSpellCard, Cards.statOr,
      Game.baseState, List.find?, List.filter]

/-- C1 (amended): `playCard` is atomic on rejection — a false return leaves
the card store and the game store untouched — and on success it removes the
played card from the hand, leaves deck and discard pile unchanged (the card
is destroyed, not discarded, so the total card count drops by one), and
deducts the card cost exactly once from the post-effect balance (for tower
cards the dispatched `placeTower` has additionally deducted its own 50
placement cost; damage spells may have credited kill rewards). -/
theorem c1_playCard_amended (cs : Cards.CardsState) (s : Game.GameState) (cid : ℕ) :
    ((Cards.playCard cs s cid).1 = false →
      (Cards.playCard cs s cid).2.1 = cs ∧ (Cards.playCard cs s cid).2.2 = s) ∧
    ((Cards.playCard cs s cid).1 = true →
      ∃ card, cs.hand.find? (fun c => c.id == cid) = some card ∧
        (Cards.playCard cs s cid).2.1.hand = cs.hand.filter (fun c => c.id != cid) ∧
        (Cards.playCard cs s cid).2.1.deck = cs.deck ∧
        (Cards.playCard cs s cid).2.1.discardPile = cs.discardPile ∧
        (Cards.playCard cs s cid).2.2.money =
          (match card.type with
            | .tower => Cards.playTowerCard s card
            | .spell => Cards.playSpellCard s card
            | .upgrade => Cards.playUpgradeCard s card).2.money - card.cost) := by
  rw [Cards.playCard]
  split
  · exact ⟨fun _ => ⟨rfl, rfl⟩, fun h => absurd h (by simp)⟩
  · rename_i card hfind
    by_cases hm : s.money < card.cost
    · rw [if_pos hm]
      exact ⟨fun _ => ⟨rfl, rfl⟩, fun h => absurd h (by simp)⟩
    · rw [if_neg hm]
      dsimp only
      by_cases hres :
          (match card.type with
            | Cards.CardType.tower => Cards.playTowerCard s card
            | Cards.CardType.spell => Cards.playSpellCard s card
            | Cards.CardType.upgrade => Cards.playUpgradeCard s card).1 = true
      · rw [if_pos hres]
        refine ⟨fun h => absurd h (by simp), fun _ => ⟨card, hfind, rfl, rfl, rfl, rfl⟩⟩
      · rw [if_neg hres]
        refine ⟨fun _ => ⟨rfl, ?_⟩, fun h => absurd h (by simp)⟩
        have hres' :
            (match card.type with
              | Cards.CardType.tower => Cards.playTowerCard s card
              | Cards.CardType.spell => Cards.playSpellCard s card
              | Cards.CardType.upgrade => Cards.playUpgradeCard s card).1 = false :=
          Bool.not_eq_true _ ▸ eq_false_of_ne_true hres
        cases htype : card.type with
        | tower =>
            rw [htype] at hres'
            exact Cards.playTowerCard_false s card hres'
        | spell =>
            rw [htype] at hres'
            exact Cards.playSpellCard_false s card hres'
        | upgrade =>
            rw [htype] at hres'
            exact Cards.playUpgradeCard_false s card hres'

/-- C1 witness for `c1_playCard_amended` at the successful damage-spell
input. -/
theorem c1_playCard_amended_witness :
    ∃ card,
      (⟨[Cards.damageSpellCard 1], [], [], 7⟩ : Cards.CardsState).hand.find?
          (fun c => c.id == 1) = some card ∧
        (Cards.playCard ⟨[Cards.damageSpellCard 1], [], [], 7⟩
            Game.baseState 1).2.1.hand =
          (⟨[Cards.damageSpellCard 1], [], [], 7⟩ : Cards.CardsState).hand.filter
            (fun c => c.id != 1) ∧
        (Cards.playCard ⟨[Cards.damageSpellCard 1], [], [], 7⟩
            Game.baseState 1).2.1.deck =
          (⟨[Cards.damageSpellCard 1], [], [], 7⟩ : Cards.CardsState).deck ∧
        (Cards.playCard ⟨[Cards.damageSpellCard 1], [], [], 7⟩
            Game.baseState 1).2.1.discardPile =
          (⟨[Cards.damageSpellCard 1], [], [], 7⟩ : Cards.CardsState).discardPile ∧
        (Cards.playCard ⟨[Cards.damageSpellCard 1], [], [], 7⟩
            Game.baseState 1).2.2.money =
          (match card.type with
            | .tower => Cards.playTowerCard Game.baseState card
            | .spell => Cards.playSpellCard Game.baseState card
            | .upgrade => Cards.playUpgradeCard Game.baseState card).2.money -
            card.cost :=
  (c1_playCard_amended ⟨[Cards.damageSpellCard 1], [], [], 7⟩ Game.baseState 1).2
    (by norm_num [Cards.playCard, Cards.playSpellCard, Cards.damageSpellCard,
      Cards.statOr, Game.baseState, List.find?])

end MarvelClash
